import Mathlib

/-!
Verification of `enn/supervised/multiloss_experiment.py`.

Shallow embedding: the Python module is translated into pure Lean
definitions.  Opaque JAX/Haiku values are concretised as integers
(`Params`, `Grads`, `Updates`, `OptState` are all `Int`, which models a
single-leaf parameter tree; `optax.apply_updates` is then integer
addition, matching optax's additive-update semantics).  The stateful
`hk.PRNGSequence` is modelled, following the module's design, as a
counter-keyed pure function `seqKey seed count`; `jax.random.PRNGKey`
is a separate injection `prngKey` into the same `Key` type.
`jax.value_and_grad(f, has_aux=True)` is modelled by a `PureLoss`
record carrying the value part (`eval`) and the gradient part (`grad`)
of one combined evaluation; JAX guarantees the value part equals the
plain evaluation of `f`, which the model realises definitionally.
Python dict mutation by `update` is modelled by a shadowing
association list: a later write is consed to the front and `dget`
returns the first (most recent) binding, which is lookup-equivalent to
Python's in-place overwrite.  The logger is modelled writer-style:
every operation returns the list of records it wrote.  Exceptions
(`IndexError` on an empty trainer list) are modelled with `Option`.
-/

abbrev Params := Int
abbrev Grads := Int
abbrev Updates := Int
abbrev OptState := Int
abbrev Index := Int

/-- A PRNG key: the seed together with a position in that seed's stream. -/
abbrev Key := Nat × Nat

/-- The `n`-th key drawn from `hk.PRNGSequence(seed)` (draw counter `n`
starts at 0).  The position is offset by 1 so that stream keys never
collide with `prngKey` keys. -/
def seqKey (seed n : Nat) : Key := (seed, n + 1)

/-- `jax.random.PRNGKey seed`. -/
def prngKey (seed : Nat) : Key := (seed, 0)

/-- A metric value: number, string or boolean, as stored in the logged
Python dicts. -/
inductive V where
  | num (n : Int)
  | str (s : String)
  | bool (b : Bool)
deriving DecidableEq, BEq

/-- A Python dict of metrics, as a shadowing association list: the most
recent binding of a key is nearest the front. -/
abbrev Metrics := List (String × V)

/-- `d[k] = v` (Python dict item assignment / one entry of `d.update`):
the new binding shadows any older one. -/
def dupdate (d : Metrics) (k : String) (v : V) : Metrics := (k, v) :: d

/-- `d.update {...}` with the literal's entries in order; a later entry
shadows an earlier one, as in Python. -/
def dupdates (d : Metrics) (kvs : List (String × V)) : Metrics :=
  kvs.foldl (fun a kv => dupdate a kv.1 kv.2) d

/-- Dict lookup: first (most recent) binding wins. -/
def dget : Metrics → String → Option V
  | [], _ => none
  | (k, v) :: rest, q => if q == k then some v else dget rest q

/-- A batch: the source only ever reads its `x` field. -/
structure Batch where
  x : Int
deriving DecidableEq

/-- `TrainingState` (`multiloss_experiment.py:32`). -/
structure TrainingState where
  params : Params
  opt_state : OptState
deriving DecidableEq

/-- A pure loss function after internalising the ENN, together with its
gradient; `eval` and `grad` are the two components returned by the one
combined `jax.value_and_grad(pure_loss, has_aux=True)` evaluation. -/
structure PureLoss where
  eval : Params → Batch → Key → Int × Metrics
  grad : Params → Batch → Key → Grads

/-- An infinite batch stream with its cursor: `next` yields `gen pos`
and advances `pos`. -/
structure Dataset where
  pos : Nat
  gen : Nat → Batch

/-- `next(dataset)`. -/
def Dataset.next (d : Dataset) : Batch × Dataset :=
  (d.gen d.pos, { d with pos := d.pos + 1 })

/-- The ENN capability (`base.EpistemicNetwork`): `init`, `apply`,
`indexer`. -/
structure EpistemicNetwork where
  init : Key → Int → Index → Params
  apply : Params → Int → Index → Int
  indexer : Key → Index

/-- The optax optimizer capability (`optax.GradientTransformation`). -/
structure GradientTransformation where
  init : Params → OptState
  update : Grads → OptState → Updates × OptState

/-- `optax.apply_updates params updates`: additive application on the
single-leaf parameter tree. -/
def apply_updates (p : Params) (u : Updates) : Params := p + u

/-- `MultilossTrainer` (`multiloss_experiment.py:37`): raw loss over the
network, dataset, schedule predicate (default always-true) and name
(default "loss"). -/
structure MultilossTrainer where
  loss_fn : EpistemicNetwork → PureLoss
  dataset : Dataset
  should_train : Nat → Bool := fun _ => true
  name : String := "loss"

/-- `_PureTrainer` (`multiloss_experiment.py:168`). -/
structure PureTrainer where
  pure_loss : PureLoss
  dataset : Dataset
  should_train : Nat → Bool
  name : String := "loss"

/-- `_purify_trainers` (`multiloss_experiment.py:177`): close each raw
loss over the fixed network, keep dataset, predicate and name, preserve
order. -/
def purifyTrainers (ts : List MultilossTrainer) (enn : EpistemicNetwork) :
    List PureTrainer :=
  ts.map fun t =>
    { pure_loss := t.loss_fn enn
      dataset := t.dataset
      should_train := t.should_train
      name := t.name }

/-- `sgd_step` (`multiloss_experiment.py:94`): one combined
value-and-grad evaluation of the pure loss, insert the loss into the
metrics under "loss", optimizer update, apply updates, build the new
state. -/
def sgd_step (optimizer : GradientTransformation) (pure_loss : PureLoss)
    (state : TrainingState) (batch : Batch) (key : Key) :
    TrainingState × Metrics :=
  let lm := pure_loss.eval state.params batch key
  let grads := pure_loss.grad state.params batch key
  let metrics := dupdate lm.2 "loss" (V.num lm.1)
  let uo := optimizer.update grads state.opt_state
  let new_params := apply_updates state.params uo.1
  ({ params := new_params, opt_state := uo.2 }, metrics)

/-- The tags merged into a training log record
(`multiloss_experiment.py:135`). -/
def trainRecord (m : Metrics) (step : Nat) (tname : String) : Metrics :=
  dupdates m
    [("dataset", V.str "train"), ("step", V.num (step : Int)),
     ("sgd", V.bool true), ("trainer", V.str tname)]

/-- The tags merged into an evaluation log record
(`multiloss_experiment.py:149`). -/
def evalRecord (m : Metrics) (dsName : String) (step : Nat) (l : Int)
    (tname : String) : Metrics :=
  dupdates m
    [("dataset", V.str dsName), ("step", V.num (step : Int)),
     ("sgd", V.bool false), ("loss", V.num l), ("trainer", V.str tname)]

/-- The orchestrator's fields (`MultilossExperiment.__init__`): the
network, the optimizer, the purified trainers, the random stream
(seed and draw counter), the evaluation datasets, the frequencies, the
shared training state and the step counter. -/
structure ExpState where
  enn : EpistemicNetwork
  optimizer : GradientTransformation
  pure_trainers : List PureTrainer
  rngSeed : Nat
  rngCount : Nat
  eval_datasets : Option (List (String × Dataset))
  eval_log_freq : Nat
  state : TrainingState
  step : Nat
  train_log_freq : Nat

/-- Python truthiness of `self._eval_datasets`: `None` and the empty
dict are falsy. -/
def edsTruthy : Option (List (String × Dataset)) → Bool
  | none => false
  | some l => !l.isEmpty

/-- The inner trainer loop of one training step
(`multiloss_experiment.py:128-141`): for each trainer in order, if it
should train, draw its batch and a stream key, run `sgd_step`, replace
the shared state, and log when due.  Returns the updated trainer list
(advanced datasets), state, draw counter and records written. -/
def trainersPhase (seed step tlf : Nat) (optimizer : GradientTransformation) :
    List PureTrainer → TrainingState → Nat →
    List PureTrainer × TrainingState × Nat × List Metrics
  | [], st, cnt => ([], st, cnt, [])
  | t :: rest, st, cnt =>
    if t.should_train step then
      let bd := t.dataset.next
      let t1 : PureTrainer := { t with dataset := bd.2 }
      let sm := sgd_step optimizer t.pure_loss st bd.1 (seqKey seed cnt)
      let logT : List Metrics :=
        if step % tlf == 0 then [trainRecord sm.2 step t.name] else []
      let res := trainersPhase seed step tlf optimizer rest sm.1 (cnt + 1)
      (t1 :: res.1, res.2.1, res.2.2.1, logT ++ res.2.2.2)
    else
      let res := trainersPhase seed step tlf optimizer rest st cnt
      (t :: res.1, res.2.1, res.2.2.1, res.2.2.2)

/-- One evaluation dataset against every trainer
(`multiloss_experiment.py:146-156`): per trainer draw a batch from the
evaluation dataset and a stream key, evaluate the pure loss with no
gradient and no state change, log the record. -/
def evalOneDataset (seed step : Nat) (params : Params) (dsName : String) :
    List PureTrainer → Dataset → Nat → Dataset × Nat × List Metrics
  | [], d, cnt => (d, cnt, [])
  | t :: rest, d, cnt =>
    let bd := d.next
    let lm := t.pure_loss.eval params bd.1 (seqKey seed cnt)
    let r := evalRecord lm.2 dsName step lm.1 t.name
    let res := evalOneDataset seed step params dsName rest bd.2 (cnt + 1)
    (res.1, res.2.1, r :: res.2.2)

/-- The evaluation loop over all configured datasets
(`multiloss_experiment.py:145`). -/
def evalPhase (seed step : Nat) (ts : List PureTrainer) (params : Params) :
    List (String × Dataset) → Nat →
    List (String × Dataset) × Nat × List Metrics
  | [], cnt => ([], cnt, [])
  | (nm, d) :: rest, cnt =>
    let r1 := evalOneDataset seed step params nm ts d cnt
    let res := evalPhase seed step ts params rest r1.2.1
    ((nm, r1.1) :: res.1, res.2.1, r1.2.2 ++ res.2.2)

/-- One iteration of the `for _ in range(num_batches)` body of `train`
(`multiloss_experiment.py:126-156`): increment the step counter, run the
trainers, then evaluate if datasets are configured (truthy) and the step
is due. -/
def stepBody (e : ExpState) : ExpState × List Metrics :=
  let step := e.step + 1
  let tp := trainersPhase e.rngSeed step e.train_log_freq e.optimizer
      e.pure_trainers e.state e.rngCount
  if edsTruthy e.eval_datasets && step % e.eval_log_freq == 0 then
    let ep := evalPhase e.rngSeed step tp.1 tp.2.1.params
        (e.eval_datasets.getD []) tp.2.2.1
    ({ e with
        pure_trainers := tp.1
        state := tp.2.1
        rngCount := ep.2.1
        eval_datasets := some ep.1
        step := step },
     tp.2.2.2 ++ ep.2.2)
  else
    ({ e with
        pure_trainers := tp.1
        state := tp.2.1
        rngCount := tp.2.2.1
        step := step },
     tp.2.2.2)

/-- `MultilossExperiment.train` (`multiloss_experiment.py:124`), with the
records written to the logger collected as a list. -/
def train : ExpState → Nat → ExpState × List Metrics
  | e, 0 => (e, [])
  | e, n + 1 =>
    let sb := stepBody e
    let res := train sb.1 n
    (res.1, sb.2 ++ res.2)

/-- `MultilossExperiment.predict` (`multiloss_experiment.py:158`):
forward the network at the current parameters under an index derived
from `PRNGKey(seed)`.  The method only reads `self`; the embedding
threads the orchestrator state to record that it is returned
unchanged. -/
def predictM (e : ExpState) (inputs : Int) (seed : Nat) : Int × ExpState :=
  let key := prngKey seed
  (e.enn.apply e.state.params inputs (e.enn.indexer key), e)

/-- `MultilossExperiment.loss` (`multiloss_experiment.py:162`): evaluate
the first pure trainer's pure loss at the current parameters, the given
batch and `PRNGKey(seed)`, and return its result (the `(loss, metrics)`
pair).  `none` models the `IndexError` raised when the trainer list is
empty. -/
def lossM (e : ExpState) (batch : Batch) (seed : Nat) :
    Option (Int × Metrics) × ExpState :=
  match e.pure_trainers with
  | [] => (none, e)
  | t :: _ => (some (t.pure_loss.eval e.state.params batch (prngKey seed)), e)

/-- `MultilossExperiment.__init__` (`multiloss_experiment.py:69-122`):
purify the trainers, start the random stream at `seed`, draw one batch
from the first trainer's dataset, draw a key for the indexer and a key
for `enn.init`, initialise the optimizer state and set the step counter
to 0.  `none` models the `IndexError` raised at construction when the
trainer list is empty. -/
def mkExperiment (enn : EpistemicNetwork) (trainers : List MultilossTrainer)
    (optimizer : GradientTransformation) (seed : Nat) (train_log_freq : Nat)
    (eval_datasets : Option (List (String × Dataset))) (eval_log_freq : Nat) :
    Option ExpState :=
  match purifyTrainers trainers enn with
  | [] => none
  | t0 :: rest =>
    let bd := t0.dataset.next
    let t1 : PureTrainer := { t0 with dataset := bd.2 }
    let index := enn.indexer (seqKey seed 0)
    let params := enn.init (seqKey seed 1) bd.1.x index
    let opt_state := optimizer.init params
    some
      { enn := enn
        optimizer := optimizer
        pure_trainers := t1 :: rest
        rngSeed := seed
        rngCount := 2
        eval_datasets := eval_datasets
        eval_log_freq := eval_log_freq
        state := { params := params, opt_state := opt_state }
        step := 0
        train_log_freq := train_log_freq }

/-- The identifying tags of a logged record: its "step", "dataset" and
"trainer" entries. -/
def tagProj (r : Metrics) : Option V × Option V × Option V :=
  (dget r "step", dget r "dataset", dget r "trainer")

/-- Whether a logged record is an evaluation record (tagged `sgd: False`). -/
def isEvalRec (r : Metrics) : Bool := dget r "sgd" == some (V.bool false)

/-- Whether a logged record is a training record (tagged `sgd: True`). -/
def isSgdTrue (r : Metrics) : Bool := dget r "sgd" == some (V.bool true)

/-- The names of a trainer list, in order. -/
def namesOf (ts : List PureTrainer) : List String := ts.map fun t => t.name

/-- The schedule-relevant signature of a trainer list: names and
predicates, in order. -/
def sigOf (ts : List PureTrainer) : List (String × (Nat → Bool)) :=
  ts.map fun t => (t.name, t.should_train)

/-- How many trainers fire at a given step. -/
def fireCount (ts : List PureTrainer) (step : Nat) : Nat :=
  (ts.filter fun t => t.should_train step).length

/-- Total number of trainer firings over steps `step0+1 .. step0+n`. -/
def totalFire (ts : List PureTrainer) : Nat → Nat → Nat
  | _, 0 => 0
  | step0, n + 1 => fireCount ts (step0 + 1) + totalFire ts (step0 + 1) n

/-- The expected tags of the evaluation records of one evaluation round
at a given step: per dataset name, one record per trainer name, in
order. -/
def evalTags (tNames : List String) (step : Nat) :
    List String → List (Option V × Option V × Option V)
  | [] => []
  | nm :: rest =>
    (tNames.map fun tn =>
      (some (V.num (step : Int)), some (V.str nm), some (V.str tn)))
      ++ evalTags tNames step rest

/-- The expected tags of all evaluation records over a run of `n` steps
starting after `step0`. -/
def runTags (dsNames tNames : List String) (elf : Nat) (truthy : Bool) :
    Nat → Nat → List (Option V × Option V × Option V)
  | _, 0 => []
  | step0, n + 1 =>
    (if truthy && (step0 + 1) % elf == 0 then evalTags tNames (step0 + 1) dsNames
     else [])
      ++ runTags dsNames tNames elf truthy (step0 + 1) n

/-- Replace the pure loss of the `i`-th trainer of an orchestrator. -/
def setLossAt (e : ExpState) (i : Nat) (f : PureLoss) : ExpState :=
  { e with
      pure_trainers :=
        e.pure_trainers.modify (fun t => { t with pure_loss := f }) i }

/-- The sequence of `TrainingState` values an orchestrator passes
through over `n` training steps. -/
def stateSeq (e : ExpState) (n : Nat) : List TrainingState :=
  (List.range n).map fun k => (train e (k + 1)).1.state

/-- Concrete pure loss used to instantiate theorems. -/
def wLossA : PureLoss :=
  { eval := fun p b k => (p + b.x + (k.1 : Int) + (k.2 : Int), [("acc", V.num 1)])
    grad := fun p b _ => p - b.x }

/-- Concrete pure loss whose raw metrics already contain a "loss" key. -/
def wLossB : PureLoss :=
  { eval := fun p b k => (p * b.x + (k.2 : Int), [("loss", V.num 99)])
    grad := fun _ _ _ => 2 }

/-- Concrete network capability. -/
def wNet : EpistemicNetwork :=
  { init := fun k x i => x + (k.2 : Int) + i
    apply := fun p x i => p + x + i
    indexer := fun k => (k.1 : Int) }

/-- Concrete optimizer capability. -/
def wOpt : GradientTransformation :=
  { init := fun p => p
    update := fun g o => (-g, o + 1) }

/-- Concrete dataset. -/
def wDs : Dataset := { pos := 0, gen := fun n => { x := (n : Int) } }

/-- A second concrete dataset. -/
def wDs2 : Dataset := { pos := 0, gen := fun n => { x := (n : Int) + 10 } }

/-- A trainer that fires on every step. -/
def wTrainerA : PureTrainer :=
  { pure_loss := wLossA, dataset := wDs, should_train := fun _ => true
    name := "A" }

/-- A second always-firing trainer. -/
def wTrainerB : PureTrainer :=
  { pure_loss := wLossB, dataset := wDs2, should_train := fun _ => true
    name := "B" }

/-- A trainer whose schedule predicate never fires. -/
def wTrainerX : PureTrainer :=
  { pure_loss := wLossB, dataset := wDs2, should_train := fun _ => false
    name := "X" }

/-- Concrete orchestrator state over the fixtures above. -/
def wExp (trs : List PureTrainer) (eds : Option (List (String × Dataset)))
    (elf : Nat) : ExpState :=
  { enn := wNet
    optimizer := wOpt
    pure_trainers := trs
    rngSeed := 3
    rngCount := 2
    eval_datasets := eds
    eval_log_freq := elf
    state := { params := 5, opt_state := 0 }
    step := 0
    train_log_freq := 1 }

/-- Concrete raw trainer binding for construction. -/
def wMTrainerA : MultilossTrainer :=
  { loss_fn := fun _ => wLossA, dataset := wDs, should_train := fun _ => true
    name := "A" }

/-- The orchestrator built by the constructor from the concrete
fixtures. -/
def wE0 : ExpState :=
  (mkExperiment wNet [wMTrainerA] wOpt 0 1 none 1).getD (wExp [] none 1)

/-- Concrete one-trainer orchestrator (no evaluation datasets). -/
def cE2 : ExpState := wExp [wTrainerA] none 1

/-- Concrete orchestrator with an always-firing trainer, a
never-firing trainer, and one evaluation dataset. -/
def cE5X : ExpState := wExp [wTrainerA, wTrainerX] (some [("ed", wDs)]) 1

/-- The same orchestrator without the never-firing trainer. -/
def cE5 : ExpState := wExp [wTrainerA] (some [("ed", wDs)]) 1

/-- Concrete orchestrator with a never-firing trainer and no
evaluation datasets. -/
def cE5w : ExpState := wExp [wTrainerA, wTrainerX] none 1

/-- Concrete two-trainer orchestrator with one evaluation dataset and
`eval_log_freq = 2`. -/
def cE6 : ExpState := wExp [wTrainerA, wTrainerB] (some [("ed", wDs)]) 2

/-- Concrete orchestrator whose `eval_datasets` is the empty mapping. -/
def cE10 : ExpState := wExp [wTrainerA] (some []) 3

/-- Replace only the gradient component of the `i`-th trainer's pure
loss, keeping its value component: an orchestrator run that never takes
an SGD step with that loss is independent of this component, because
`jax.value_and_grad` (and hence the gradient) is invoked only inside
`sgd_step`, while evaluation calls only the value part. -/
def setGradAt (e : ExpState) (i : Nat) (g : Params → Batch → Key → Grads) :
    ExpState :=
  { e with
      pure_trainers :=
        e.pure_trainers.modify
          (fun t => { t with
            pure_loss := { eval := t.pure_loss.eval, grad := g } }) i }

/-- An always-firing trainer carrying the source's default name
"loss". -/
def wTrainerAdup : PureTrainer :=
  { pure_loss := wLossA, dataset := wDs, should_train := fun _ => true
    name := "loss" }

/-- A never-firing trainer carrying the same default name "loss". -/
def wTrainerXdup : PureTrainer :=
  { pure_loss := wLossB, dataset := wDs2, should_train := fun _ => false
    name := "loss" }

/-- Concrete orchestrator whose two trainers share the default name. -/
def cE5dup : ExpState := wExp [wTrainerAdup, wTrainerXdup] none 1

/-! ### Record lookup facts -/

theorem dget_dupdate_hit (d : Metrics) (k : String) (v : V) :
    dget (dupdate d k v) k = some v := by
  simp [dget, dupdate]

theorem dget_trainRecord_sgd (m : Metrics) (s : Nat) (n : String) :
    dget (trainRecord m s n) "sgd" = some (V.bool true) := rfl

theorem dget_trainRecord_trainer (m : Metrics) (s : Nat) (n : String) :
    dget (trainRecord m s n) "trainer" = some (V.str n) := rfl

theorem dget_evalRecord_sgd (m : Metrics) (ds : String) (s : Nat) (l : Int)
    (n : String) : dget (evalRecord m ds s l n) "sgd" = some (V.bool false) :=
  rfl

theorem tagProj_evalRecord (m : Metrics) (ds : String) (s : Nat) (l : Int)
    (n : String) :
    tagProj (evalRecord m ds s l n) =
      (some (V.num (s : Int)), some (V.str ds), some (V.str n)) := rfl

theorem isEvalRec_evalRecord (m : Metrics) (ds : String) (s : Nat) (l : Int)
    (n : String) : isEvalRec (evalRecord m ds s l n) = true := rfl

theorem isEvalRec_trainRecord (m : Metrics) (s : Nat) (n : String) :
    isEvalRec (trainRecord m s n) = false := rfl

theorem isSgdTrue_trainRecord (m : Metrics) (s : Nat) (n : String) :
    isSgdTrue (trainRecord m s n) = true := rfl

theorem isSgdTrue_evalRecord (m : Metrics) (ds : String) (s : Nat) (l : Int)
    (n : String) : isSgdTrue (evalRecord m ds s l n) = false := rfl

/-! ### Claim theorems: SGD step -/

/-- C1: `sgd_step` computes `(loss, metrics)` and the gradient of the
loss with respect to `state.params` from one combined evaluation of the
pure loss (`eval`/`grad` are the two components of the single
`jax.value_and_grad` call at the same point), inserts the loss into the
metrics under "loss", obtains the updates and new optimizer state from
the optimizer's `update` applied to the gradients and
`state.opt_state`, applies the updates with `apply_updates`, and
returns the new `TrainingState` together with the metrics mapping.  The
embedding is purely functional, so the input state cannot be and is not
mutated: the result is characterised entirely in terms of the unchanged
inputs. -/
theorem sgd_step_correct (optimizer : GradientTransformation) (f : PureLoss)
    (st : TrainingState) (b : Batch) (k : Key) :
    (sgd_step optimizer f st b k).1.params =
        apply_updates st.params
          (optimizer.update (f.grad st.params b k) st.opt_state).1
      ∧ (sgd_step optimizer f st b k).1.opt_state =
        (optimizer.update (f.grad st.params b k) st.opt_state).2
      ∧ (sgd_step optimizer f st b k).2 =
        dupdate (f.eval st.params b k).2 "loss" (V.num (f.eval st.params b k).1)
      ∧ dget (sgd_step optimizer f st b k).2 "loss" =
        some (V.num (f.eval st.params b k).1) :=
  ⟨rfl, rfl, rfl, by simp [sgd_step, dget_dupdate_hit]⟩

/-- C7: the metrics mapping returned by `sgd_step` maps "loss" to the
scalar loss it computed, shadowing any "loss" entry of the raw metrics
(last write wins), and the training record emitted from it (which adds
only the dataset/step/sgd/trainer tags) still maps "loss" to that same
scalar. -/
theorem loss_key_last_write (optimizer : GradientTransformation)
    (f : PureLoss) (st : TrainingState) (b : Batch) (k : Key) (step : Nat)
    (tname : String) :
    dget (sgd_step optimizer f st b k).2 "loss" =
        some (V.num (f.eval st.params b k).1)
      ∧ dget (trainRecord (sgd_step optimizer f st b k).2 step tname) "loss" =
        some (V.num (f.eval st.params b k).1) :=
  ⟨by simp [sgd_step, dget_dupdate_hit], rfl⟩

/-! ### Claim theorems: construction -/

/-- C9: constructing the orchestrator with an empty trainer list fails
at construction itself (the embedding returns `none`, modelling the
uncaught `IndexError` from `pure_trainers[0]` inside `__init__`), while
any non-empty trainer list constructs successfully; the failure is a
value, not retried, and `train` is unreachable since no state exists. -/
theorem empty_trainers_construction_fails (enn : EpistemicNetwork)
    (optimizer : GradientTransformation) (seed tlf elf : Nat)
    (eds : Option (List (String × Dataset))) (t : MultilossTrainer)
    (ts : List MultilossTrainer) :
    mkExperiment enn [] optimizer seed tlf eds elf = none
      ∧ (mkExperiment enn (t :: ts) optimizer seed tlf eds elf).isSome = true :=
  ⟨rfl, rfl⟩

/-! ### Claim theorems: the loss operation -/

/-- C2 counterexample: `loss(batch, seed)` does NOT return the scalar
loss only.  On a concrete orchestrator it returns the first trainer's
full `(loss, metrics)` pair: the metrics mapping `[("acc", 1)]` is part
of the returned value, not discarded. -/
theorem loss_returns_metrics_cex :
    (lossM cE2 { x := 2 } 7).1 = some (14, [("acc", V.num 1)])
      ∧ ([("acc", V.num 1)] : Metrics) ≠ ([] : Metrics) :=
  ⟨rfl, by decide⟩

/-- C2 amended: for every batch and seed, `loss(batch, seed)` evaluates
only the first pure trainer's `pure_loss` at the current parameters
with the key derived deterministically from `seed` via `PRNGKey`, and
returns that call's full `(loss, metrics)` result (the metrics are not
discarded); the orchestrator state is returned unchanged. -/
theorem loss_first_trainer_full_result (e : ExpState) (t : PureTrainer)
    (rest : List PureTrainer) (b : Batch) (seed : Nat)
    (h : e.pure_trainers = t :: rest) :
    lossM e b seed =
      (some (t.pure_loss.eval e.state.params b (prngKey seed)), e) := by
  unfold lossM
  rw [h]

/-- C2 amended, instantiated at a concrete orchestrator, batch and
seed. -/
theorem loss_first_trainer_full_result_inst :
    lossM cE2 { x := 2 } 7 =
      (some (wTrainerA.pure_loss.eval cE2.state.params { x := 2 } (prngKey 7)),
        cE2) :=
  loss_first_trainer_full_result cE2 wTrainerA [] { x := 2 } 7 rfl

/-! ### Claim theorems: read-only operations -/

/-- C3: `predict` and `loss` return the orchestrator state unchanged —
same random stream position, step counter, training state, trainer
datasets and evaluation datasets — so any number of calls to either
between `train` calls leaves every subsequent `train` behaviour (final
state and every logged record) identical. -/
theorem predict_loss_read_only (e : ExpState) (inputs : Int) (b : Batch)
    (s1 s2 : Nat) (n : Nat) :
    (predictM e inputs s1).2 = e
      ∧ (lossM e b s2).2 = e
      ∧ train (predictM e inputs s1).2 n = train e n
      ∧ train (lossM e b s2).2 n = train e n := by
  have h1 : (predictM e inputs s1).2 = e := rfl
  have h2 : (lossM e b s2).2 = e := by unfold lossM; split <;> rfl
  exact ⟨h1, h2, by rw [h1], by rw [h2]⟩

/-! ### Step body projections -/

theorem stepBody_step (e : ExpState) : (stepBody e).1.step = e.step + 1 := by
  unfold stepBody
  dsimp only
  split <;> rfl

theorem stepBody_pure_trainers (e : ExpState) :
    (stepBody e).1.pure_trainers =
      (trainersPhase e.rngSeed (e.step + 1) e.train_log_freq e.optimizer
        e.pure_trainers e.state e.rngCount).1 := by
  unfold stepBody
  dsimp only
  split <;> rfl

theorem stepBody_state (e : ExpState) :
    (stepBody e).1.state =
      (trainersPhase e.rngSeed (e.step + 1) e.train_log_freq e.optimizer
        e.pure_trainers e.state e.rngCount).2.1 := by
  unfold stepBody
  dsimp only
  split <;> rfl

theorem stepBody_rngSeed (e : ExpState) :
    (stepBody e).1.rngSeed = e.rngSeed := by
  unfold stepBody
  dsimp only
  split <;> rfl

theorem stepBody_optimizer (e : ExpState) :
    (stepBody e).1.optimizer = e.optimizer := by
  unfold stepBody
  dsimp only
  split <;> rfl

theorem stepBody_enn (e : ExpState) : (stepBody e).1.enn = e.enn := by
  unfold stepBody
  dsimp only
  split <;> rfl

theorem stepBody_eval_log_freq (e : ExpState) :
    (stepBody e).1.eval_log_freq = e.eval_log_freq := by
  unfold stepBody
  dsimp only
  split <;> rfl

theorem stepBody_train_log_freq (e : ExpState) :
    (stepBody e).1.train_log_freq = e.train_log_freq := by
  unfold stepBody
  dsimp only
  split <;> rfl

/-! ### Step counter -/

theorem train_step_count (n : Nat) : ∀ e : ExpState,
    (train e n).1.step = e.step + n := by
  induction n with
  | zero => intro e; rfl
  | succ m ih =>
    intro e
    show (train (stepBody e).1 m).1.step = e.step + (m + 1)
    rw [ih, stepBody_step]
    omega

/-- C4: the step counter of a freshly constructed orchestrator is 0,
and `train n` increments it exactly once per per-batch iteration, so it
ends at its prior value plus `n`; in particular it never decreases
across the orchestrator's lifetime (`predict`/`loss` leave the state
untouched by `predict_loss_read_only`). -/
theorem step_counter_inc (enn : EpistemicNetwork)
    (trainers : List MultilossTrainer) (optimizer : GradientTransformation)
    (seed tlf elf : Nat) (eds : Option (List (String × Dataset)))
    (e0 : ExpState)
    (h : mkExperiment enn trainers optimizer seed tlf eds elf = some e0)
    (e : ExpState) (n : Nat) :
    e0.step = 0
      ∧ (train e n).1.step = e.step + n
      ∧ e.step ≤ (train e n).1.step := by
  refine ⟨?_, train_step_count n e, ?_⟩
  · unfold mkExperiment at h
    split at h
    · exact absurd h (by simp)
    · injection h with h2
      rw [← h2]
  · rw [train_step_count n e]
    omega

/-- C4, instantiated at the concretely constructed orchestrator, with
its hypotheses discharged by computation. -/
theorem step_counter_inc_inst :
    wE0.step = 0
      ∧ (train wE0 3).1.step = wE0.step + 3
      ∧ wE0.step ≤ (train wE0 3).1.step :=
  step_counter_inc wNet [wMTrainerA] wOpt 0 1 1 none wE0 rfl wE0 3

/-- C8: determinism.  The orchestrator's construction and its whole
training run are pure functions of the seed, the trainer list and the
supplied capabilities: two constructions from identical arguments yield
the same orchestrator, and their `TrainingState` sequences over any `n`
training steps are identical. -/
theorem run_determinism (enn : EpistemicNetwork)
    (trainers : List MultilossTrainer) (optimizer : GradientTransformation)
    (seed tlf elf : Nat) (eds : Option (List (String × Dataset)))
    (e1 e2 : ExpState) (n : Nat)
    (h1 : mkExperiment enn trainers optimizer seed tlf eds elf = some e1)
    (h2 : mkExperiment enn trainers optimizer seed tlf eds elf = some e2) :
    e1 = e2 ∧ stateSeq e1 n = stateSeq e2 n := by
  rw [h1] at h2
  injection h2 with h3
  exact ⟨h3, by rw [h3]⟩

/-- C8, instantiated at two constructions from the same concrete
arguments. -/
theorem run_determinism_inst : wE0 = wE0 ∧ stateSeq wE0 5 = stateSeq wE0 5 :=
  run_determinism wNet [wMTrainerA] wOpt 0 1 1 none wE0 wE0 5 rfl rfl

/-! ### Training-phase log facts -/

theorem tp_log_filter_eval (seed step tlf : Nat)
    (opt : GradientTransformation) :
    ∀ (ts : List PureTrainer) (st : TrainingState) (cnt : Nat),
      ((trainersPhase seed step tlf opt ts st cnt).2.2.2).filter isEvalRec
        = [] := by
  intro ts
  induction ts with
  | nil => intro st cnt; rfl
  | cons t rest ih =>
    intro st cnt
    by_cases h : t.should_train step = true
    · simp only [trainersPhase, if_pos h]
      rw [List.filter_append, ih, List.append_nil]
      by_cases hf : (step % tlf == 0) = true
      · rw [if_pos hf]
        simp [List.filter_cons, isEvalRec_trainRecord]
      · rw [if_neg hf]
        rfl
    · simp only [trainersPhase, if_neg h]
      exact ih st cnt

/-! ### Step body under a falsy evaluation mapping -/

theorem stepBody_false (e : ExpState) (h : edsTruthy e.eval_datasets = false) :
    stepBody e =
      ({ e with
          pure_trainers :=
            (trainersPhase e.rngSeed (e.step + 1) e.train_log_freq e.optimizer
              e.pure_trainers e.state e.rngCount).1
          state :=
            (trainersPhase e.rngSeed (e.step + 1) e.train_log_freq e.optimizer
              e.pure_trainers e.state e.rngCount).2.1
          rngCount :=
            (trainersPhase e.rngSeed (e.step + 1) e.train_log_freq e.optimizer
              e.pure_trainers e.state e.rngCount).2.2.1
          step := e.step + 1 },
        (trainersPhase e.rngSeed (e.step + 1) e.train_log_freq e.optimizer
          e.pure_trainers e.state e.rngCount).2.2.2) := by
  unfold stepBody
  dsimp only
  rw [if_neg (by rw [h]; simp)]

theorem stepBody_eds_none (e : ExpState)
    (h : edsTruthy e.eval_datasets = false) :
    (stepBody e).1.eval_datasets = e.eval_datasets := by
  rw [stepBody_false e h]

theorem stepBody_eds_irrelevant (e : ExpState)
    (o : Option (List (String × Dataset)))
    (h1 : edsTruthy e.eval_datasets = false) (h2 : edsTruthy o = false) :
    stepBody { e with eval_datasets := o } =
      ({ (stepBody e).1 with eval_datasets := o }, (stepBody e).2) := by
  rw [stepBody_false e h1, stepBody_false { e with eval_datasets := o } h2]

theorem train_eds_irrelevant (n : Nat) : ∀ (e : ExpState)
    (o : Option (List (String × Dataset))),
    edsTruthy e.eval_datasets = false → edsTruthy o = false →
    train { e with eval_datasets := o } n =
      ({ (train e n).1 with eval_datasets := o }, (train e n).2) := by
  induction n with
  | zero => intro e o _ _; rfl
  | succ m ih =>
    intro e o h1 h2
    show (let sb := stepBody { e with eval_datasets := o }
          let res := train sb.1 m
          (res.1, sb.2 ++ res.2)) = _
    rw [stepBody_eds_irrelevant e o h1 h2]
    dsimp only
    have hpres : edsTruthy (stepBody e).1.eval_datasets = false := by
      rw [stepBody_eds_none e h1]; exact h1
    rw [ih (stepBody e).1 o hpres h2]
    rfl

theorem train_noeval_log (n : Nat) : ∀ e : ExpState,
    edsTruthy e.eval_datasets = false →
    ((train e n).2).filter isEvalRec = [] := by
  induction n with
  | zero => intro e _; rfl
  | succ m ih =>
    intro e h
    show ((stepBody e).2 ++ (train (stepBody e).1 m).2).filter isEvalRec = []
    rw [List.filter_append]
    have hpres : edsTruthy (stepBody e).1.eval_datasets = false := by
      rw [stepBody_eds_none e h]; exact h
    rw [ih (stepBody e).1 hpres]
    rw [List.append_nil]
    rw [stepBody_false e h]
    exact tp_log_filter_eval _ _ _ _ _ _ _

/-- C10: an orchestrator whose `eval_datasets` is the empty mapping
behaves exactly like one with no evaluation datasets at all, for every
`eval_log_freq` and every number of steps: the two runs write identical
logs and reach identical states (up to the stored mapping itself), and
no evaluation record (tagged `sgd: False`) is ever logged.  Both the
empty dict and `None` are falsy, so the guard at
`multiloss_experiment.py:144` never fires. -/
theorem empty_eval_datasets_noop (e : ExpState) (n : Nat)
    (h : e.eval_datasets = some []) :
    (train e n).2 = (train { e with eval_datasets := none } n).2
      ∧ (train e n).1 =
        { (train { e with eval_datasets := none } n).1 with
            eval_datasets := some [] }
      ∧ ((train e n).2).filter isEvalRec = [] := by
  have hfe : edsTruthy e.eval_datasets = false := by rw [h]; rfl
  have he : { (e : ExpState) with eval_datasets := some [] } = e := by
    obtain ⟨f1, f2, f3, f4, f5, f6, f7, f8, f9, f10⟩ := e
    simp only at h
    rw [h]
  have hnone : edsTruthy ({ e with eval_datasets := none } : ExpState).eval_datasets
      = false := rfl
  have key :
      train { ({ e with eval_datasets := none } : ExpState) with
          eval_datasets := some [] } n =
        ({ (train { e with eval_datasets := none } n).1 with
            eval_datasets := some [] },
          (train { e with eval_datasets := none } n).2) :=
    train_eds_irrelevant n { e with eval_datasets := none } (some []) hnone rfl
  have he2 : { ({ e with eval_datasets := none } : ExpState) with
      eval_datasets := some [] } = e := by
    obtain ⟨f1, f2, f3, f4, f5, f6, f7, f8, f9, f10⟩ := e
    simp only at h
    rw [h]
  rw [he2] at key
  refine ⟨?_, ?_, train_noeval_log n e hfe⟩
  · rw [key]
  · rw [key]

/-- C10, instantiated at a concrete orchestrator with
`eval_datasets = some []` over two training steps. -/
theorem empty_eval_datasets_noop_inst :
    (train cE10 2).2 = (train { cE10 with eval_datasets := none } 2).2
      ∧ (train cE10 2).1 =
        { (train { cE10 with eval_datasets := none } 2).1 with
            eval_datasets := some [] }
      ∧ ((train cE10 2).2).filter isEvalRec = [] :=
  empty_eval_datasets_noop cE10 2 rfl

/-! ### Evaluation-phase log characterisation -/

theorem eo_log_tags (seed step : Nat) (params : Params) (dsName : String) :
    ∀ (ts : List PureTrainer) (d : Dataset) (cnt : Nat),
      ((evalOneDataset seed step params dsName ts d cnt).2.2).map tagProj =
        ts.map fun t =>
          (some (V.num (step : Int)), some (V.str dsName),
            some (V.str t.name)) := by
  intro ts
  induction ts with
  | nil => intro d cnt; rfl
  | cons t rest ih =>
    intro d cnt
    simp only [evalOneDataset, List.map_cons]
    rw [ih]
    rfl

theorem eo_log_filter (seed step : Nat) (params : Params) (dsName : String) :
    ∀ (ts : List PureTrainer) (d : Dataset) (cnt : Nat),
      ((evalOneDataset seed step params dsName ts d cnt).2.2).filter isEvalRec
        = (evalOneDataset seed step params dsName ts d cnt).2.2 := by
  intro ts
  induction ts with
  | nil => intro d cnt; rfl
  | cons t rest ih =>
    intro d cnt
    simp only [evalOneDataset]
    rw [List.filter_cons]
    rw [isEvalRec_evalRecord]
    rw [if_pos rfl]
    rw [ih]

theorem ep_names (seed step : Nat) (ts : List PureTrainer) (params : Params) :
    ∀ (eds : List (String × Dataset)) (cnt : Nat),
      ((evalPhase seed step ts params eds cnt).1).map Prod.fst =
        eds.map Prod.fst := by
  intro eds
  induction eds with
  | nil => intro cnt; rfl
  | cons p rest ih =>
    intro cnt
    obtain ⟨nm, d⟩ := p
    simp only [evalPhase, List.map_cons]
    rw [ih]

theorem ep_log_tags (seed step : Nat) (ts : List PureTrainer)
    (params : Params) :
    ∀ (eds : List (String × Dataset)) (cnt : Nat),
      ((evalPhase seed step ts params eds cnt).2.2).map tagProj =
        evalTags (namesOf ts) step (eds.map Prod.fst) := by
  intro eds
  induction eds with
  | nil => intro cnt; rfl
  | cons p rest ih =>
    intro cnt
    obtain ⟨nm, d⟩ := p
    simp only [evalPhase, List.map_cons, List.map_append, evalTags]
    rw [ih, eo_log_tags]
    simp [namesOf, List.map_map]

theorem ep_log_filter (seed step : Nat) (ts : List PureTrainer)
    (params : Params) :
    ∀ (eds : List (String × Dataset)) (cnt : Nat),
      ((evalPhase seed step ts params eds cnt).2.2).filter isEvalRec =
        (evalPhase seed step ts params eds cnt).2.2 := by
  intro eds
  induction eds with
  | nil => intro cnt; rfl
  | cons p rest ih =>
    intro cnt
    obtain ⟨nm, d⟩ := p
    simp only [evalPhase]
    rw [List.filter_append, ih, eo_log_filter]

/-! ### Trainer signature preservation -/

theorem namesOf_sig (ts : List PureTrainer) :
    namesOf ts = (sigOf ts).map Prod.fst := by
  simp [namesOf, sigOf, List.map_map]

theorem tp_sig (seed step tlf : Nat) (opt : GradientTransformation) :
    ∀ (ts : List PureTrainer) (st : TrainingState) (cnt : Nat),
      sigOf (trainersPhase seed step tlf opt ts st cnt).1 = sigOf ts := by
  intro ts
  induction ts with
  | nil => intro st cnt; rfl
  | cons t rest ih =>
    intro st cnt
    by_cases h : t.should_train step = true
    · simp only [trainersPhase, if_pos h, sigOf, List.map_cons]
      have := ih (sgd_step opt t.pure_loss st t.dataset.next.1
        (seqKey seed cnt)).1 (cnt + 1)
      simp only [sigOf] at this
      rw [this]
    · simp only [trainersPhase, if_neg h, sigOf, List.map_cons]
      have := ih st cnt
      simp only [sigOf] at this
      rw [this]

theorem tp_names (seed step tlf : Nat) (opt : GradientTransformation)
    (ts : List PureTrainer) (st : TrainingState) (cnt : Nat) :
    namesOf (trainersPhase seed step tlf opt ts st cnt).1 = namesOf ts := by
  rw [namesOf_sig, tp_sig, ← namesOf_sig]

/-! ### Step body branch characterisations -/

theorem stepBody_true (e : ExpState)
    (h : (edsTruthy e.eval_datasets
        && ((e.step + 1) % e.eval_log_freq == 0)) = true) :
    stepBody e =
      ({ e with
          pure_trainers :=
            (trainersPhase e.rngSeed (e.step + 1) e.train_log_freq e.optimizer
              e.pure_trainers e.state e.rngCount).1
          state :=
            (trainersPhase e.rngSeed (e.step + 1) e.train_log_freq e.optimizer
              e.pure_trainers e.state e.rngCount).2.1
          rngCount :=
            (evalPhase e.rngSeed (e.step + 1)
              (trainersPhase e.rngSeed (e.step + 1) e.train_log_freq
                e.optimizer e.pure_trainers e.state e.rngCount).1
              (trainersPhase e.rngSeed (e.step + 1) e.train_log_freq
                e.optimizer e.pure_trainers e.state e.rngCount).2.1.params
              (e.eval_datasets.getD [])
              (trainersPhase e.rngSeed (e.step + 1) e.train_log_freq
                e.optimizer e.pure_trainers e.state e.rngCount).2.2.1).2.1
          eval_datasets :=
            some (evalPhase e.rngSeed (e.step + 1)
              (trainersPhase e.rngSeed (e.step + 1) e.train_log_freq
                e.optimizer e.pure_trainers e.state e.rngCount).1
              (trainersPhase e.rngSeed (e.step + 1) e.train_log_freq
                e.optimizer e.pure_trainers e.state e.rngCount).2.1.params
              (e.eval_datasets.getD [])
              (trainersPhase e.rngSeed (e.step + 1) e.train_log_freq
                e.optimizer e.pure_trainers e.state e.rngCount).2.2.1).1
          step := e.step + 1 },
        (trainersPhase e.rngSeed (e.step + 1) e.train_log_freq e.optimizer
          e.pure_trainers e.state e.rngCount).2.2.2
          ++ (evalPhase e.rngSeed (e.step + 1)
            (trainersPhase e.rngSeed (e.step + 1) e.train_log_freq
              e.optimizer e.pure_trainers e.state e.rngCount).1
            (trainersPhase e.rngSeed (e.step + 1) e.train_log_freq
              e.optimizer e.pure_trainers e.state e.rngCount).2.1.params
            (e.eval_datasets.getD [])
            (trainersPhase e.rngSeed (e.step + 1) e.train_log_freq
              e.optimizer e.pure_trainers e.state e.rngCount).2.2.1).2.2) := by
  unfold stepBody
  dsimp only
  rw [if_pos h]

theorem stepBody_guard_false (e : ExpState)
    (h : (edsTruthy e.eval_datasets
        && ((e.step + 1) % e.eval_log_freq == 0)) = false) :
    stepBody e =
      ({ e with
          pure_trainers :=
            (trainersPhase e.rngSeed (e.step + 1) e.train_log_freq e.optimizer
              e.pure_trainers e.state e.rngCount).1
          state :=
            (trainersPhase e.rngSeed (e.step + 1) e.train_log_freq e.optimizer
              e.pure_trainers e.state e.rngCount).2.1
          rngCount :=
            (trainersPhase e.rngSeed (e.step + 1) e.train_log_freq e.optimizer
              e.pure_trainers e.state e.rngCount).2.2.1
          step := e.step + 1 },
        (trainersPhase e.rngSeed (e.step + 1) e.train_log_freq e.optimizer
          e.pure_trainers e.state e.rngCount).2.2.2) := by
  unfold stepBody
  dsimp only
  rw [if_neg (by rw [h]; simp)]

theorem stepBody_eds_names (e : ExpState) :
    (((stepBody e).1.eval_datasets).getD []).map Prod.fst =
      ((e.eval_datasets).getD []).map Prod.fst := by
  by_cases h : (edsTruthy e.eval_datasets
      && ((e.step + 1) % e.eval_log_freq == 0)) = true
  · rw [stepBody_true e h]
    exact ep_names _ _ _ _ _ _
  · rw [stepBody_guard_false e (by simpa using h)]

theorem ep_isEmpty (seed step : Nat) (ts : List PureTrainer)
    (params : Params) :
    ∀ (eds : List (String × Dataset)) (cnt : Nat),
      ((evalPhase seed step ts params eds cnt).1).isEmpty = eds.isEmpty := by
  intro eds
  induction eds with
  | nil => intro cnt; rfl
  | cons p rest ih =>
    intro cnt
    obtain ⟨nm, d⟩ := p
    simp only [evalPhase]
    rfl

theorem stepBody_edsTruthy (e : ExpState) :
    edsTruthy (stepBody e).1.eval_datasets = edsTruthy e.eval_datasets := by
  by_cases h : (edsTruthy e.eval_datasets
      && ((e.step + 1) % e.eval_log_freq == 0)) = true
  · rw [stepBody_true e h]
    dsimp only
    have h1 : edsTruthy e.eval_datasets = true := (Bool.and_eq_true_iff.mp h).1
    rw [h1]
    simp only [edsTruthy, ep_isEmpty]
    cases hds : e.eval_datasets with
    | none => rw [hds] at h1; simp [edsTruthy] at h1
    | some l =>
      rw [hds] at h1
      simpa [edsTruthy] using h1
  · rw [stepBody_guard_false e (by simpa using h)]

theorem stepBody_names (e : ExpState) :
    namesOf (stepBody e).1.pure_trainers = namesOf e.pure_trainers := by
  rw [stepBody_pure_trainers]
  exact tp_names _ _ _ _ _ _ _

theorem stepBody_sig (e : ExpState) :
    sigOf (stepBody e).1.pure_trainers = sigOf e.pure_trainers := by
  rw [stepBody_pure_trainers]
  exact tp_sig _ _ _ _ _ _ _

theorem stepBody_filter_eval (e : ExpState) :
    (((stepBody e).2).filter isEvalRec).map tagProj =
      (if edsTruthy e.eval_datasets
          && ((e.step + 1) % e.eval_log_freq == 0) then
        evalTags (namesOf e.pure_trainers) (e.step + 1)
          ((e.eval_datasets.getD []).map Prod.fst)
      else []) := by
  by_cases h : (edsTruthy e.eval_datasets
      && ((e.step + 1) % e.eval_log_freq == 0)) = true
  · rw [stepBody_true e h, if_pos h]
    dsimp only
    rw [List.filter_append, tp_log_filter_eval, List.nil_append,
      ep_log_filter, ep_log_tags, tp_names]
  · rw [stepBody_guard_false e (by simpa using h), if_neg h]
    dsimp only
    rw [tp_log_filter_eval]
    rfl

/-! ### Whole-run evaluation schedule -/

theorem train_run_tags (n : Nat) : ∀ e : ExpState,
    (((train e n).2).filter isEvalRec).map tagProj =
      runTags ((e.eval_datasets.getD []).map Prod.fst)
        (namesOf e.pure_trainers) e.eval_log_freq
        (edsTruthy e.eval_datasets) e.step n := by
  induction n with
  | zero => intro e; rfl
  | succ m ih =>
    intro e
    show (((stepBody e).2 ++ (train (stepBody e).1 m).2).filter
        isEvalRec).map tagProj = _
    rw [List.filter_append, List.map_append, stepBody_filter_eval, ih]
    simp only [runTags]
    rw [stepBody_eds_names, stepBody_names, stepBody_eval_log_freq,
      stepBody_edsTruthy, stepBody_step]

/-- C6: with `eval_log_freq = 2`, one configured evaluation dataset and
two trainers, training for 4 steps logs exactly the evaluation records
of 2 rounds — at steps 2 and 4 — each consisting of exactly 2 records,
one per trainer in construction order, tagged `sgd: False` (that is the
filter) and with `dataset` equal to the evaluation dataset's name; and
evaluation never touches the shared training state: after any step, the
training state is exactly the one produced by the trainers phase,
whatever the evaluation phase did. -/
theorem eval_schedule_records (e : ExpState) (t1 t2 : PureTrainer)
    (nm : String) (d : Dataset) (e2 : ExpState)
    (h1 : e.pure_trainers = [t1, t2])
    (h2 : e.eval_datasets = some [(nm, d)])
    (h3 : e.eval_log_freq = 2) (h4 : e.step = 0) :
    (((train e 4).2).filter isEvalRec).map tagProj =
      [(some (V.num 2), some (V.str nm), some (V.str t1.name)),
       (some (V.num 2), some (V.str nm), some (V.str t2.name)),
       (some (V.num 4), some (V.str nm), some (V.str t1.name)),
       (some (V.num 4), some (V.str nm), some (V.str t2.name))]
      ∧ (stepBody e2).1.state =
        (trainersPhase e2.rngSeed (e2.step + 1) e2.train_log_freq e2.optimizer
          e2.pure_trainers e2.state e2.rngCount).2.1 := by
  refine ⟨?_, stepBody_state e2⟩
  rw [train_run_tags, h1, h2, h3, h4]
  simp only [runTags, evalTags, namesOf, edsTruthy, Option.getD_some,
    List.map_cons, List.map_nil, List.isEmpty_cons, Bool.not_false,
    Bool.true_and]
  norm_num

/-- C6, instantiated at a concrete two-trainer orchestrator with one
evaluation dataset and `eval_log_freq = 2`. -/
theorem eval_schedule_records_inst :
    (((train cE6 4).2).filter isEvalRec).map tagProj =
      [(some (V.num 2), some (V.str "ed"), some (V.str wTrainerA.name)),
       (some (V.num 2), some (V.str "ed"), some (V.str wTrainerB.name)),
       (some (V.num 4), some (V.str "ed"), some (V.str wTrainerA.name)),
       (some (V.num 4), some (V.str "ed"), some (V.str wTrainerB.name))]
      ∧ (stepBody cE6).1.state =
        (trainersPhase cE6.rngSeed (cE6.step + 1) cE6.train_log_freq
          cE6.optimizer cE6.pure_trainers cE6.state cE6.rngCount).2.1 :=
  eval_schedule_records cE6 wTrainerA wTrainerB "ed" wDs cE6 rfl rfl rfl rfl

/-! ### Non-firing trainers are untouched -/

theorem tp_getElem (seed step tlf : Nat) (opt : GradientTransformation) :
    ∀ (ts : List PureTrainer) (st : TrainingState) (cnt : Nat) (i : Nat),
      ((trainersPhase seed step tlf opt ts st cnt).1)[i]? =
        (ts[i]?).map fun t =>
          if t.should_train step then { t with dataset := t.dataset.next.2 }
          else t := by
  intro ts
  induction ts with
  | nil => intro st cnt i; rfl
  | cons t rest ih =>
    intro st cnt i
    by_cases h : t.should_train step = true
    · simp only [trainersPhase, if_pos h]
      cases i with
      | zero => simp [h]
      | succ j => simpa using ih _ _ j
    · simp only [trainersPhase, if_neg h]
      cases i with
      | zero => simp [h]
      | succ j => simpa using ih _ _ j

theorem train_getElem_pred_false (N : Nat) : ∀ (e : ExpState) (i : Nat)
    (t : PureTrainer), e.pure_trainers[i]? = some t →
    (∀ s, e.step < s → s ≤ e.step + N → t.should_train s = false) →
    (train e N).1.pure_trainers[i]? = some t := by
  induction N with
  | zero => intro e i t hi _; exact hi
  | succ m ih =>
    intro e i t hi hp
    show (train (stepBody e).1 m).1.pure_trainers[i]? = some t
    apply ih
    · rw [stepBody_pure_trainers, tp_getElem, hi]
      simp [hp (e.step + 1) (by omega) (by omega)]
    · intro s hs1 hs2
      rw [stepBody_step] at hs1 hs2
      exact hp s (by omega) (by omega)

/-! ### No training record bears a never-firing trainer's name -/

theorem name_pred_trainRecord (m : Metrics) (s : Nat) (n tname : String)
    (h : n ≠ tname) :
    (isSgdTrue (trainRecord m s n)
      && (dget (trainRecord m s n) "trainer" == some (V.str tname))) = false := by
  rw [isSgdTrue_trainRecord, dget_trainRecord_trainer, Bool.true_and]
  show (n == tname) = false
  exact beq_eq_false_iff_ne.mpr h

theorem name_pred_evalRecord (m : Metrics) (ds : String) (s : Nat) (l : Int)
    (n tname : String) :
    (isSgdTrue (evalRecord m ds s l n)
      && (dget (evalRecord m ds s l n) "trainer" == some (V.str tname)))
      = false := by
  rw [isSgdTrue_evalRecord, Bool.false_and]

theorem tp_log_filter_name (seed step tlf : Nat)
    (opt : GradientTransformation) (tname : String) :
    ∀ (ts : List PureTrainer) (st : TrainingState) (cnt : Nat),
      (∀ t ∈ ts, t.should_train step = true → t.name ≠ tname) →
      ((trainersPhase seed step tlf opt ts st cnt).2.2.2).filter
        (fun r => isSgdTrue r && (dget r "trainer" == some (V.str tname)))
        = [] := by
  intro ts
  induction ts with
  | nil => intro st cnt _; rfl
  | cons t rest ih =>
    intro st cnt hname
    by_cases h : t.should_train step = true
    · simp only [trainersPhase, if_pos h]
      rw [List.filter_append,
        ih _ _ (fun t' ht' => hname t' (List.mem_cons_of_mem _ ht')),
        List.append_nil]
      by_cases hf : (step % tlf == 0) = true
      · rw [if_pos hf, List.filter_cons,
          name_pred_trainRecord _ _ _ _ (hname t (List.mem_cons_self _ _) h)]
        simp
      · rw [if_neg hf]
        rfl
    · simp only [trainersPhase, if_neg h]
      exact ih _ _ (fun t' ht' => hname t' (List.mem_cons_of_mem _ ht'))

theorem eo_log_filter_name (seed step : Nat) (params : Params)
    (dsName tname : String) :
    ∀ (ts : List PureTrainer) (d : Dataset) (cnt : Nat),
      ((evalOneDataset seed step params dsName ts d cnt).2.2).filter
        (fun r => isSgdTrue r && (dget r "trainer" == some (V.str tname)))
        = [] := by
  intro ts
  induction ts with
  | nil => intro d cnt; rfl
  | cons t rest ih =>
    intro d cnt
    simp only [evalOneDataset]
    rw [List.filter_cons, name_pred_evalRecord]
    simp only [Bool.false_eq_true, if_false]
    exact ih _ _

theorem ep_log_filter_name (seed step : Nat) (ts : List PureTrainer)
    (params : Params) (tname : String) :
    ∀ (eds : List (String × Dataset)) (cnt : Nat),
      ((evalPhase seed step ts params eds cnt).2.2).filter
        (fun r => isSgdTrue r && (dget r "trainer" == some (V.str tname)))
        = [] := by
  intro eds
  induction eds with
  | nil => intro cnt; rfl
  | cons p rest ih =>
    intro cnt
    obtain ⟨nm, d⟩ := p
    simp only [evalPhase]
    rw [List.filter_append, eo_log_filter_name, ih]
    rfl

theorem stepBody_log_filter_name (e : ExpState) (tname : String)
    (h : ∀ t ∈ e.pure_trainers,
      t.should_train (e.step + 1) = true → t.name ≠ tname) :
    ((stepBody e).2).filter
      (fun r => isSgdTrue r && (dget r "trainer" == some (V.str tname)))
      = [] := by
  by_cases hg : (edsTruthy e.eval_datasets
      && ((e.step + 1) % e.eval_log_freq == 0)) = true
  · rw [stepBody_true e hg]
    dsimp only
    rw [List.filter_append, tp_log_filter_name _ _ _ _ _ _ _ _ h,
      ep_log_filter_name]
    rfl
  · rw [stepBody_guard_false e (by simpa using hg)]
    exact tp_log_filter_name _ _ _ _ _ _ _ _ h

theorem train_log_filter_name (N : Nat) (tname : String) : ∀ e : ExpState,
    (∀ q ∈ sigOf e.pure_trainers, ∀ s, e.step < s → s ≤ e.step + N →
      q.2 s = true → q.1 ≠ tname) →
    ((train e N).2).filter
      (fun r => isSgdTrue r && (dget r "trainer" == some (V.str tname)))
      = [] := by
  induction N with
  | zero => intro e _; rfl
  | succ m ih =>
    intro e hq
    show (((stepBody e).2 ++ (train (stepBody e).1 m).2).filter _) = []
    rw [List.filter_append]
    rw [stepBody_log_filter_name e tname (fun t ht hfire =>
      hq (t.name, t.should_train) (List.mem_map_of_mem _ ht) (e.step + 1)
        (by omega) (by omega) hfire)]
    rw [ih (stepBody e).1 ?_]
    · rfl
    · intro q hq2 s hs1 hs2
      rw [stepBody_sig] at hq2
      rw [stepBody_step] at hs1 hs2
      exact hq q hq2 s (by omega) (by omega)

/-! ### Random stream draw accounting -/

theorem tp_cnt (seed step tlf : Nat) (opt : GradientTransformation) :
    ∀ (ts : List PureTrainer) (st : TrainingState) (cnt : Nat),
      (trainersPhase seed step tlf opt ts st cnt).2.2.1 =
        cnt + fireCount ts step := by
  intro ts
  induction ts with
  | nil => intro st cnt; simp [trainersPhase, fireCount]
  | cons t rest ih =>
    intro st cnt
    by_cases h : t.should_train step = true
    · simp only [trainersPhase, if_pos h]
      rw [ih]
      simp [fireCount, List.filter_cons, h]
      omega
    · simp only [trainersPhase, if_neg h]
      rw [ih]
      simp [fireCount, List.filter_cons, h]

theorem fireCount_eq_sig (ts : List PureTrainer) (s : Nat) :
    fireCount ts s = ((sigOf ts).filter fun q => q.2 s).length := by
  simp [fireCount, sigOf, List.filter_map]
  rfl

theorem totalFire_sig (ts1 ts2 : List PureTrainer)
    (h : sigOf ts1 = sigOf ts2) :
    ∀ (N s : Nat), totalFire ts1 s N = totalFire ts2 s N := by
  intro N
  induction N with
  | zero => intro s; rfl
  | succ m ih =>
    intro s
    simp only [totalFire]
    rw [fireCount_eq_sig, h, ← fireCount_eq_sig, ih]

theorem train_rngCount_noeval (N : Nat) : ∀ e : ExpState,
    e.eval_datasets = none →
    (train e N).1.rngCount = e.rngCount + totalFire e.pure_trainers e.step N := by
  induction N with
  | zero => intro e _; simp [train, totalFire]
  | succ m ih =>
    intro e h
    have hfe : edsTruthy e.eval_datasets = false := by rw [h]; rfl
    show (train (stepBody e).1 m).1.rngCount = _
    rw [ih (stepBody e).1 (by rw [stepBody_eds_none e hfe]; exact h)]
    have hc : (stepBody e).1.rngCount =
        e.rngCount + fireCount e.pure_trainers (e.step + 1) := by
      rw [stepBody_false e hfe]
      exact tp_cnt _ _ _ _ _ _ _
    rw [hc, totalFire_sig _ _ (stepBody_sig e), stepBody_step]
    simp only [totalFire]
    omega

theorem fireCount_eraseIdx :
    ∀ (ts : List PureTrainer) (i : Nat) (t : PureTrainer) (s : Nat),
      ts[i]? = some t → t.should_train s = false →
      fireCount ts s = fireCount (ts.eraseIdx i) s := by
  intro ts
  induction ts with
  | nil => intro i t s hi _; simp at hi
  | cons hd rest ih =>
    intro i t s hi hp
    cases i with
    | zero =>
      simp only [List.getElem?_cons_zero, Option.some.injEq] at hi
      subst hi
      show fireCount (hd :: rest) s = fireCount rest s
      simp [fireCount, List.filter_cons, hp]
    | succ j =>
      simp only [List.getElem?_cons_succ] at hi
      show fireCount (hd :: rest) s = fireCount (hd :: rest.eraseIdx j) s
      have hr := ih j t s hi hp
      by_cases hh : hd.should_train s = true
      · simp [fireCount, List.filter_cons, hh] at hr ⊢
        omega
      · simp [fireCount, List.filter_cons, hh] at hr ⊢
        omega

theorem totalFire_eraseIdx (ts : List PureTrainer) (i : Nat)
    (t : PureTrainer) (hi : ts[i]? = some t) :
    ∀ (N step0 : Nat),
      (∀ s, step0 < s → s ≤ step0 + N → t.should_train s = false) →
      totalFire ts step0 N = totalFire (ts.eraseIdx i) step0 N := by
  intro N
  induction N with
  | zero => intro step0 _; rfl
  | succ m ih =>
    intro step0 hp
    simp only [totalFire]
    rw [fireCount_eraseIdx ts i t (step0 + 1) hi (hp _ (by omega) (by omega)),
      ih (step0 + 1) (fun s h1 h2 => hp s (by omega) (by omega))]

/-! ### The run is independent of a never-firing trainer's loss -/

theorem tp_modify (seed step tlf : Nat) (opt : GradientTransformation)
    (f : PureLoss) :
    ∀ (ts : List PureTrainer) (i : Nat) (st : TrainingState) (cnt : Nat),
      (∀ t, ts[i]? = some t → t.should_train step = false) →
      trainersPhase seed step tlf opt
          (ts.modify (fun t => { t with pure_loss := f }) i) st cnt =
        ((trainersPhase seed step tlf opt ts st cnt).1.modify
            (fun t => { t with pure_loss := f }) i,
          (trainersPhase seed step tlf opt ts st cnt).2) := by
  intro ts
  induction ts with
  | nil =>
    intro i st cnt _
    cases i <;> rfl
  | cons t rest ih =>
    intro i st cnt hp
    cases i with
    | zero =>
      have h0 : t.should_train step = false := hp t (by simp)
      have hc : ¬(t.should_train step = true) := by simp [h0]
      show trainersPhase seed step tlf opt
          ({ t with pure_loss := f } :: rest) st cnt = _
      simp only [trainersPhase, if_neg hc]
      rfl
    | succ j =>
      have hj : ∀ t', rest[j]? = some t' → t'.should_train step = false :=
        fun t' h' => hp t' (by simpa using h')
      show trainersPhase seed step tlf opt
          (t :: rest.modify (fun tr => { tr with pure_loss := f }) j) st cnt
          = _
      by_cases h : t.should_train step = true
      · simp only [trainersPhase, if_pos h]
        rw [ih j _ _ hj]
        rfl
      · simp only [trainersPhase, if_neg h]
        rw [ih j _ _ hj]
        rfl

theorem stepBody_setLoss (e : ExpState) (i : Nat) (f : PureLoss)
    (t : PureTrainer) (heval : e.eval_datasets = none)
    (hi : e.pure_trainers[i]? = some t)
    (hp : t.should_train (e.step + 1) = false) :
    stepBody (setLossAt e i f) = (setLossAt (stepBody e).1 i f, (stepBody e).2) := by
  have hfe : edsTruthy e.eval_datasets = false := by rw [heval]; rfl
  have hfe2 : edsTruthy (setLossAt e i f).eval_datasets = false := hfe
  rw [stepBody_false _ hfe2, stepBody_false e hfe]
  unfold setLossAt
  dsimp only
  rw [tp_modify _ _ _ _ _ _ _ _ _ (fun t' h' => by
    rw [hi] at h'
    injection h' with h''
    rw [← h'']
    exact hp)]

theorem train_setLoss (N : Nat) : ∀ (e : ExpState) (i : Nat) (f : PureLoss)
    (t : PureTrainer), e.eval_datasets = none →
    e.pure_trainers[i]? = some t →
    (∀ s, e.step < s → s ≤ e.step + N → t.should_train s = false) →
    train (setLossAt e i f) N =
      ({ (train e N).1 with
          pure_trainers :=
            (train e N).1.pure_trainers.modify
              (fun tr => { tr with pure_loss := f }) i },
        (train e N).2) := by
  induction N with
  | zero => intro e i f t _ _ _; rfl
  | succ m ih =>
    intro e i f t heval hi hp
    have hfe : edsTruthy e.eval_datasets = false := by rw [heval]; rfl
    show (let sb := stepBody (setLossAt e i f)
          let res := train sb.1 m
          (res.1, sb.2 ++ res.2)) = _
    rw [stepBody_setLoss e i f t heval hi (hp (e.step + 1) (by omega) (by omega))]
    dsimp only
    rw [ih (stepBody e).1 i f t (by rw [stepBody_eds_none e hfe]; exact heval)
      (by rw [stepBody_pure_trainers, tp_getElem, hi]
          simp [hp (e.step + 1) (by omega) (by omega)])
      (by intro s hs1 hs2
          rw [stepBody_step] at hs1 hs2
          exact hp s (by omega) (by omega))]
    rfl

theorem tp_modify_grad (seed step tlf : Nat) (opt : GradientTransformation)
    (g : Params → Batch → Key → Grads) :
    ∀ (ts : List PureTrainer) (i : Nat) (st : TrainingState) (cnt : Nat),
      (∀ t, ts[i]? = some t → t.should_train step = false) →
      trainersPhase seed step tlf opt
          (ts.modify (fun t => { t with
            pure_loss := { eval := t.pure_loss.eval, grad := g } }) i) st cnt =
        ((trainersPhase seed step tlf opt ts st cnt).1.modify
            (fun t => { t with
              pure_loss := { eval := t.pure_loss.eval, grad := g } }) i,
          (trainersPhase seed step tlf opt ts st cnt).2) := by
  intro ts
  induction ts with
  | nil =>
    intro i st cnt _
    cases i <;> rfl
  | cons t rest ih =>
    intro i st cnt hp
    cases i with
    | zero =>
      have h0 : t.should_train step = false := hp t (by simp)
      have hc : ¬(t.should_train step = true) := by simp [h0]
      show trainersPhase seed step tlf opt
          ({ t with pure_loss := { eval := t.pure_loss.eval, grad := g } }
            :: rest) st cnt = _
      simp only [trainersPhase, if_neg hc]
      rfl
    | succ j =>
      have hj : ∀ t', rest[j]? = some t' → t'.should_train step = false :=
        fun t' h' => hp t' (by simpa using h')
      show trainersPhase seed step tlf opt
          (t :: rest.modify (fun tr => { tr with
            pure_loss := { eval := tr.pure_loss.eval, grad := g } }) j) st cnt
          = _
      by_cases h : t.should_train step = true
      · simp only [trainersPhase, if_pos h]
        rw [ih j _ _ hj]
        rfl
      · simp only [trainersPhase, if_neg h]
        rw [ih j _ _ hj]
        rfl

theorem eo_modify_grad (seed step : Nat) (params : Params) (dsName : String)
    (g : Params → Batch → Key → Grads) :
    ∀ (ts : List PureTrainer) (i : Nat) (d : Dataset) (cnt : Nat),
      evalOneDataset seed step params dsName
          (ts.modify (fun t => { t with
            pure_loss := { eval := t.pure_loss.eval, grad := g } }) i) d cnt =
        evalOneDataset seed step params dsName ts d cnt := by
  intro ts
  induction ts with
  | nil => intro i d cnt; cases i <;> rfl
  | cons t rest ih =>
    intro i d cnt
    cases i with
    | zero => rfl
    | succ j =>
      show evalOneDataset seed step params dsName
          (t :: rest.modify (fun tr => { tr with
            pure_loss := { eval := tr.pure_loss.eval, grad := g } }) j) d cnt
          = _
      simp only [evalOneDataset]
      rw [ih j]

theorem ep_modify_grad (seed step : Nat) (ts : List PureTrainer)
    (params : Params) (g : Params → Batch → Key → Grads) (i : Nat) :
    ∀ (eds : List (String × Dataset)) (cnt : Nat),
      evalPhase seed step
          (ts.modify (fun t => { t with
            pure_loss := { eval := t.pure_loss.eval, grad := g } }) i)
          params eds cnt =
        evalPhase seed step ts params eds cnt := by
  intro eds
  induction eds with
  | nil => intro cnt; rfl
  | cons p rest ih =>
    intro cnt
    obtain ⟨nm, d⟩ := p
    simp only [evalPhase]
    rw [eo_modify_grad, ih]

theorem stepBody_setGrad (e : ExpState) (i : Nat)
    (g : Params → Batch → Key → Grads) (t : PureTrainer)
    (hi : e.pure_trainers[i]? = some t)
    (hp : t.should_train (e.step + 1) = false) :
    stepBody (setGradAt e i g) = (setGradAt (stepBody e).1 i g, (stepBody e).2) := by
  have hmod : ∀ t', e.pure_trainers[i]? = some t' →
      t'.should_train (e.step + 1) = false := fun t' h' => by
    rw [hi] at h'
    injection h' with h''
    rw [← h'']
    exact hp
  by_cases hg : (edsTruthy e.eval_datasets
      && ((e.step + 1) % e.eval_log_freq == 0)) = true
  · have hg2 : (edsTruthy (setGradAt e i g).eval_datasets
        && (((setGradAt e i g).step + 1) % (setGradAt e i g).eval_log_freq
          == 0)) = true := hg
    rw [stepBody_true _ hg2, stepBody_true e hg]
    unfold setGradAt
    dsimp only
    rw [tp_modify_grad _ _ _ _ _ _ _ _ _ hmod, ep_modify_grad]
  · have hg2 : (edsTruthy (setGradAt e i g).eval_datasets
        && (((setGradAt e i g).step + 1) % (setGradAt e i g).eval_log_freq
          == 0)) = false := by simpa using hg
    rw [stepBody_guard_false _ hg2, stepBody_guard_false e (by simpa using hg)]
    unfold setGradAt
    dsimp only
    rw [tp_modify_grad _ _ _ _ _ _ _ _ _ hmod]

theorem train_setGrad (N : Nat) : ∀ (e : ExpState) (i : Nat)
    (g : Params → Batch → Key → Grads) (t : PureTrainer),
    e.pure_trainers[i]? = some t →
    (∀ s, e.step < s → s ≤ e.step + N → t.should_train s = false) →
    train (setGradAt e i g) N =
      ({ (train e N).1 with
          pure_trainers :=
            (train e N).1.pure_trainers.modify
              (fun tr => { tr with
                pure_loss := { eval := tr.pure_loss.eval, grad := g } }) i },
        (train e N).2) := by
  induction N with
  | zero => intro e i g t _ _; rfl
  | succ m ih =>
    intro e i g t hi hp
    show (let sb := stepBody (setGradAt e i g)
          let res := train sb.1 m
          (res.1, sb.2 ++ res.2)) = _
    rw [stepBody_setGrad e i g t hi (hp (e.step + 1) (by omega) (by omega))]
    dsimp only
    rw [ih (stepBody e).1 i g t
      (by rw [stepBody_pure_trainers, tp_getElem, hi]
          simp [hp (e.step + 1) (by omega) (by omega)])
      (by intro s hs1 hs2
          rw [stepBody_step] at hs1 hs2
          exact hp s (by omega) (by omega))]
    rfl

/-- C5 counterexample, in two parts.  (i) With an evaluation dataset
configured, a trainer whose predicate never fires still causes
shared-stream key draws: on concrete orchestrators differing only in
the presence of the never-firing trainer `wTrainerX`, one training step
draws 3 stream keys with it (1 SGD draw for the firing trainer plus 2
evaluation draws, one per trainer) but only 2 without it — so a key is
drawn on the never-firing trainer's behalf during the evaluation round.
(ii) When another trainer shares the never-firing trainer's name (both
carry the source's default "loss"), one training step does emit a
training record (`sgd: True`) bearing that name — the firing trainer's
record — so "never emits a training metrics record bearing its name"
fails without a name-uniqueness proviso. -/
theorem never_train_cex :
    wTrainerX.should_train 1 = false
      ∧ cE5X.pure_trainers = cE5.pure_trainers ++ [wTrainerX]
      ∧ cE5X.eval_datasets = cE5.eval_datasets
      ∧ (train cE5X 1).1.rngCount = cE5X.rngCount + 3
      ∧ (train cE5 1).1.rngCount = cE5.rngCount + 2
      ∧ wTrainerXdup.should_train 1 = false
      ∧ cE5dup.pure_trainers[1]? = some wTrainerXdup
      ∧ ((train cE5dup 1).2).filter
          (fun r => isSgdTrue r
            && (dget r "trainer" == some (V.str wTrainerXdup.name))) ≠ [] :=
  ⟨rfl, rfl, rfl, rfl, rfl, rfl, rfl, by decide⟩

/-- C5 amended: for every trainer whose `should_train` predicate is
false on all steps of the run, `train` leaves that trainer — its
dataset cursor included — untouched at its position (so its dataset is
never drawn from), and never runs an SGD step with its loss: the entire
run (final training state, stream position and full log) is independent
of the trainer's gradient component, unconditionally — the gradient
(`jax.value_and_grad`) is taken only inside `sgd_step`, while
evaluation rounds call only the loss's value part.  Provided no other
trainer shares the trainer's name, no training record (`sgd: True`)
bearing its name is emitted.  When no evaluation datasets are
configured, the total stream consumption is accounted for entirely by
firing trainers (deleting the never-firing trainer leaves the count
unchanged) and the run is independent of the trainer's entire loss
function; when evaluation datasets are configured, evaluation rounds do
draw one stream key per trainer, the never-firing one included
(`never_train_cex`). -/
theorem never_train_frame (e : ExpState) (N i : Nat) (t : PureTrainer)
    (g : Params → Batch → Key → Grads) (f : PureLoss)
    (hi : e.pure_trainers[i]? = some t)
    (hpred : ∀ s, e.step < s → s ≤ e.step + N → t.should_train s = false) :
    (train e N).1.pure_trainers[i]? = some t
      ∧ ((∀ j t', e.pure_trainers[j]? = some t' → j ≠ i →
            t'.name ≠ t.name) →
          ((train e N).2).filter
            (fun r => isSgdTrue r
              && (dget r "trainer" == some (V.str t.name))) = [])
      ∧ (train (setGradAt e i g) N).1.state = (train e N).1.state
      ∧ (train (setGradAt e i g) N).1.rngCount = (train e N).1.rngCount
      ∧ (train (setGradAt e i g) N).2 = (train e N).2
      ∧ (e.eval_datasets = none →
          (train e N).1.rngCount =
              e.rngCount + totalFire e.pure_trainers e.step N
            ∧ totalFire e.pure_trainers e.step N =
              totalFire (e.pure_trainers.eraseIdx i) e.step N
            ∧ (train (setLossAt e i f) N).1.state = (train e N).1.state
            ∧ (train (setLossAt e i f) N).1.rngCount =
              (train e N).1.rngCount
            ∧ (train (setLossAt e i f) N).2 = (train e N).2) := by
  refine ⟨train_getElem_pred_false N e i t hi hpred, ?_, ?_, ?_, ?_, ?_⟩
  · intro hname
    apply train_log_filter_name
    intro q hq s hs1 hs2 hfire
    obtain ⟨t2, ht2, hq2⟩ := List.mem_map.mp hq
    obtain ⟨j, hj⟩ := List.mem_iff_getElem?.mp ht2
    by_cases hji : j = i
    · subst hji
      rw [hi] at hj
      injection hj with hj2
      subst hj2
      rw [← hq2] at hfire
      simp only at hfire
      rw [hpred s hs1 hs2] at hfire
      exact absurd hfire (by simp)
    · have hne := hname j t2 hj hji
      rw [← hq2]
      exact hne
  · rw [train_setGrad N e i g t hi hpred]
  · rw [train_setGrad N e i g t hi hpred]
  · rw [train_setGrad N e i g t hi hpred]
  · intro heval
    refine ⟨train_rngCount_noeval N e heval,
      totalFire_eraseIdx e.pure_trainers i t hi N e.step hpred, ?_, ?_, ?_⟩
    · rw [train_setLoss N e i f t heval hi hpred]
    · rw [train_setLoss N e i f t heval hi hpred]
    · rw [train_setLoss N e i f t heval hi hpred]

/-- C5 amended, instantiated: the never-firing trainer `wTrainerX` at
position 1 of a concrete two-trainer orchestrator without evaluation
datasets, over 2 training steps, with its gradient component replaced
by `wLossA.grad` and its whole loss replaced by `wLossA`; the
name-uniqueness and no-evaluation premises are discharged concretely. -/
theorem never_train_frame_inst :
    (train cE5w 2).1.pure_trainers[1]? = some wTrainerX
      ∧ ((train cE5w 2).2).filter
          (fun r => isSgdTrue r
            && (dget r "trainer" == some (V.str wTrainerX.name))) = []
      ∧ (train (setGradAt cE5w 1 wLossA.grad) 2).1.state =
        (train cE5w 2).1.state
      ∧ (train (setGradAt cE5w 1 wLossA.grad) 2).1.rngCount =
        (train cE5w 2).1.rngCount
      ∧ (train (setGradAt cE5w 1 wLossA.grad) 2).2 = (train cE5w 2).2
      ∧ (train cE5w 2).1.rngCount =
        cE5w.rngCount + totalFire cE5w.pure_trainers cE5w.step 2
      ∧ totalFire cE5w.pure_trainers cE5w.step 2 =
        totalFire (cE5w.pure_trainers.eraseIdx 1) cE5w.step 2
      ∧ (train (setLossAt cE5w 1 wLossA) 2).1.state = (train cE5w 2).1.state
      ∧ (train (setLossAt cE5w 1 wLossA) 2).1.rngCount =
        (train cE5w 2).1.rngCount
      ∧ (train (setLossAt cE5w 1 wLossA) 2).2 = (train cE5w 2).2 := by
  have h := never_train_frame cE5w 2 1 wTrainerX wLossA.grad wLossA rfl
    (fun _ _ _ => rfl)
  have hb := h.2.1 (by
    intro j t' hj hji
    match j, hj, hji with
    | 0, hj, _ =>
      have : wTrainerA = t' := by simpa [cE5w, wExp] using hj
      rw [← this]
      decide
    | 1, _, hji => exact absurd rfl hji
    | (k + 2), hj, _ => simp [cE5w, wExp] at hj)
  have hd := h.2.2.2.2.2 rfl
  exact ⟨h.1, hb, h.2.2.1, h.2.2.2.1, h.2.2.2.2.1, hd.1, hd.2.1, hd.2.2.1,
    hd.2.2.2.1, hd.2.2.2.2⟩
